import Mathlib

/-!
# Verification of the YouTube download-and-transcribe pipeline (`src/app.py`)

This file is a shallow embedding of the pipeline implemented in `app.py`:
URL validation (`extract_video_id`, `is_valid_youtube_url`), the metadata
probe (`validate_video_info`), the multi-strategy audio acquirer
(`download_audio`), the AssemblyAI client with its polling loop
(`upload_to_assemblyai`), temporary-file cleanup (`cleanup_temp_files`)
and the JSON API route (`api_transcribe`).

External collaborators (yt-dlp, the filesystem, the AssemblyAI HTTP API,
wall-clock time) are modelled as explicit oracle parameters.  Python
strings are modelled as `List Char` (wrapped in `String` at function
boundaries); `urllib.parse.urlparse` and `parse_qs` are modelled after
CPython's `urlsplit`/`_splitparams`/`parse_qsl` algorithms, without
percent-decoding (no input considered here contains `%` or `+`).
-/

/-! ## Python-style string primitives -/

/-- `isLeadOf p l` : the list `p` is an initial segment of `l`. -/
def isLeadOf : List Char → List Char → Bool
  | [], _ => true
  | _ :: _, [] => false
  | a :: as, b :: bs => a == b && isLeadOf as bs

/-- Python's `needle in haystack`: `hasSub l n` holds when `n` occurs
contiguously inside `l`. -/
def hasSub : List Char → List Char → Bool
  | [], n => isLeadOf n []
  | x :: t, n => isLeadOf n (x :: t) || hasSub t n

/-- Python's `s.split(c, 1)` viewed as a break at the first occurrence of
`c`: `none` when `c` does not occur. -/
def breakAt (c : Char) : List Char → Option (List Char × List Char)
  | [] => none
  | x :: xs =>
    if x == c then some ([], xs)
    else (breakAt c xs).map (fun p => (x :: p.1, p.2))

/-- Break at the last occurrence of `c` (Python's `rfind`-based splits). -/
def breakAtLast (c : Char) : List Char → Option (List Char × List Char)
  | [] => none
  | x :: xs =>
    match breakAtLast c xs with
    | some (a, b) => some (x :: a, b)
    | none => if x == c then some ([], xs) else none

/-- Python's `s.split(c)` for a one-character separator: every occurrence
splits, empty segments are kept, and `''.split(c) == ['']`. -/
def splitChar (c : Char) : List Char → List (List Char)
  | [] => [[]]
  | x :: xs =>
    if x == c then [] :: splitChar c xs
    else
      match splitChar c xs with
      | [] => [[x]]
      | h :: t => (x :: h) :: t

/-- Append `s` to the last segment of a split result (specification device
for `splitChar` over an append). -/
def lastGlue (rs : List (List Char)) (s : List Char) : List (List Char) :=
  match rs with
  | [] => [s]
  | [h] => [h ++ s]
  | h :: t => h :: lastGlue t s

/-- Python's `xs[-1]` on a split result (split results are never empty). -/
def lastD : List (List Char) → List Char
  | [] => []
  | [h] => h
  | _ :: t => lastD t

/-- Python's `xs[0]` on a split result (split results are never empty). -/
def headD0 : List (List Char) → List Char
  | [] => []
  | h :: _ => h

/-- Python's `str.lower()` (ASCII-adequate, character-wise). -/
def pyLower (l : List Char) : List Char := l.map Char.toLower

/-- Python's `str.strip()`. -/
def pyStrip (s : String) : String :=
  String.mk (((s.toList.dropWhile Char.isWhitespace).reverse.dropWhile
    Char.isWhitespace).reverse)

/-! ## Error taxonomy (`app.py` lines 36-54)

`base` is the bare `YouTubeTranscriberError`; `other` stands for any
exception outside the app's own hierarchy. -/

inductive TError
  | videoUnavailable (msg : String)
  | videoTooLong (msg : String)
  | download (msg : String)
  | transcription (msg : String)
  | base (msg : String)
  | other (msg : String)
deriving DecidableEq, Repr

/-! ## Configuration constants (`app.py` lines 31-34) -/

def MAX_VIDEO_DURATION : Nat := 1800

def MAX_FILE_SIZE : Nat := 100 * 1024 * 1024

def TRANSCRIPTION_TIMEOUT : Nat := 600

/-! ## URL validator (`extract_video_id`, `is_valid_youtube_url`,
`app.py` lines 64-78) -/

structure UrlParts where
  scheme : List Char
  netloc : List Char
  path : List Char
  params : List Char
  query : List Char
  fragment : List Char
deriving DecidableEq, Repr

/-- Characters allowed after the first in a URL scheme (CPython's
`scheme_chars`). -/
def schemeCharOk (c : Char) : Bool :=
  c.isAlpha || c.isDigit || c == '+' || c == '-' || c == '.'

/-- Scheme recognition step of CPython's `urlsplit`. -/
def schemeSplit (u : List Char) : List Char × List Char :=
  match breakAt ':' u with
  | some (before, after) =>
    match before with
    | [] => ([], u)
    | b :: _ =>
      if b.isAlpha && before.all schemeCharOk then (pyLower before, after)
      else ([], u)
  | none => ([], u)

/-- A character that does not end the netloc (`_splitnetloc` scans up to
the first of `/`, `?`, `#`). -/
def netChar (c : Char) : Bool := !(c == '/' || c == '?' || c == '#')

/-- Netloc recognition step of CPython's `urlsplit`. -/
def netlocSplit (r : List Char) : List Char × List Char :=
  match r with
  | '/' :: '/' :: rest => (rest.takeWhile netChar, rest.dropWhile netChar)
  | _ => ([], r)

/-- Fragment split of CPython's `urlsplit` (`url.split('#', 1)`). -/
def fragSplit (r : List Char) : List Char × List Char :=
  match breakAt '#' r with
  | some (a, b) => (a, b)
  | none => (r, [])

/-- Query split of CPython's `urlsplit` (`url.split('?', 1)`). -/
def querySplit (r : List Char) : List Char × List Char :=
  match breakAt '?' r with
  | some (a, b) => (a, b)
  | none => (r, [])

/-- CPython's `_splitparams`: split `;params` off the last path segment. -/
def pySplitparams (p : List Char) : List Char × List Char :=
  match breakAtLast '/' p with
  | some (pre, post) =>
    match breakAt ';' post with
    | some (x, y) => (pre ++ '/' :: x, y)
    | none => (p, [])
  | none =>
    match breakAt ';' p with
    | some (x, y) => (x, y)
    | none => (p, [])

/-- Model of `urllib.parse.urlparse` (CPython `urlsplit` + `_splitparams`,
no percent-decoding). -/
def pyUrlparse (u : List Char) : UrlParts :=
  let s := schemeSplit u
  let n := netlocSplit s.2
  let f := fragSplit n.2
  let q := querySplit f.1
  let pp := pySplitparams q.1
  ⟨s.1, n.1, pp.1, pp.2, q.2, f.2⟩

/-- First `v=value` pair with a nonempty value, scanning the `&`-separated
query in order: models `parse_qs(q).get('v', [None])[0]` (CPython
`parse_qsl` drops blank values and pairs without `=` when
`keep_blank_values` is false). -/
def parseQsVGo : List (List Char) → Option (List Char)
  | [] => none
  | p :: rest =>
    match breakAt '=' p with
    | none => parseQsVGo rest
    | some (n, v) =>
      if n = ['v'] ∧ v ≠ [] then some v else parseQsVGo rest

def parseQsV (query : List Char) : Option (List Char) :=
  parseQsVGo (splitChar '&' query)

/-- `app.py` lines 64-74.  Branches: a URL containing `youtu.be` takes the
short-link path (`url.split('/')[-1].split('?')[0]`); otherwise a URL
containing `youtube.com` is parsed and the id read from the `v` query
parameter (`/watch`) or the third path segment (`/embed/`); anything else
yields `None`. -/
def extract_video_id (url : String) : Option String :=
  let u := url.toList
  if hasSub u ("youtu.be".toList) then
    some (String.mk (headD0 (splitChar '?' (lastD (splitChar '/' u)))))
  else if hasSub u ("youtube.com".toList) then
    let parsed := pyUrlparse u
    if parsed.path = "/watch".toList then
      (parseQsV parsed.query).map String.mk
    else if isLeadOf ("/embed/".toList) parsed.path then
      some (String.mk ((splitChar '/' parsed.path).getD 2 []))
    else none
  else none

/-- `app.py` lines 76-78. -/
def is_valid_youtube_url (url : String) : Bool :=
  let lu := pyLower url.toList
  (hasSub lu ("youtube.com".toList) || hasSub lu ("youtu.be".toList))
    && (extract_video_id url).isSome

/-! ## Video metadata probe (`validate_video_info`, `app.py` lines 88-133) -/

/-- The fields of the yt-dlp info dict that `validate_video_info` reads.
`duration` distinguishes a missing key (`none`), a key present with the
value `None` (`some none`) and a numeric value (`some (some n)`), because
`info.get('duration', 0)` treats the first two differently. -/
structure InfoDict where
  duration : Option (Option Nat)
  title : Option String
  uploader : Option String
  view_count : Option Nat
deriving DecidableEq, Repr

/-- The dict returned by `validate_video_info`.  `duration = none` models
the Python value `None` (passed through from the info dict). -/
structure VideoInfo where
  title : String
  duration : Option Nat
  uploader : String
  view_count : Nat
deriving DecidableEq, Repr

/-- Outcome of the `ydl.extract_info(url, download=False)` call:
it returns (possibly `None`), raises `yt_dlp.utils.ExtractorError`,
or raises some other exception with message `msg`. -/
inductive ExtractOutcome
  | success (info : Option InfoDict)
  | extractorError (msg : String)
  | otherError (msg : String)
deriving Repr

/-- `info.get('duration', 0)`: `0` when the key is absent, the stored
value (possibly `None`) when present. -/
def pyGetDuration : Option (Option Nat) → Option Nat
  | none => some 0
  | some none => none
  | some (some n) => some n

/-- Python `%02d` formatting of `duration % 60`. -/
def pad2 (n : Nat) : String :=
  if n < 10 then "0" ++ toString n else toString n

/-- The message of the `VideoTooLongError` raised at `app.py` line 113. -/
def tooLongMsg (d : Nat) : String :=
  "Video is too long (" ++ toString (d / 60) ++ ":" ++ pad2 (d % 60) ++
    "). Maximum allowed: " ++ toString (MAX_VIDEO_DURATION / 60) ++ " minutes"

/-- The result dict built at `app.py` lines 115-120. -/
def mkVideoInfo (info : InfoDict) (dur : Option Nat) : VideoInfo :=
  { title := info.title.getD "Unknown"
  , duration := dur
  , uploader := info.uploader.getD "Unknown"
  , view_count := info.view_count.getD 0 }

/-- `app.py` lines 88-133.  Note the control flow of the original: the
`VideoUnavailableError` of line 105 and the `VideoTooLongError` of line
113 are raised *inside* the `try` block, so they are caught by the
blanket `except Exception` of line 132 and re-raised as a bare
`YouTubeTranscriberError("Validation failed: " + str(e))`; only the
`VideoUnavailableError`s raised inside the `except ExtractorError`
handler (lines 124-131) escape with their own class. -/
def validate_video_info (outcome : ExtractOutcome) : Except TError VideoInfo :=
  match outcome with
  | .extractorError msg =>
    let m := pyLower msg.toList
    if hasSub m ("video unavailable".toList)
        || hasSub m ("content isn't available".toList)
        || hasSub m ("private video".toList) then
      .error (.videoUnavailable "Video is unavailable, private, or restricted")
    else if hasSub m ("sign in to confirm your age".toList) then
      .error (.videoUnavailable "Video requires age verification")
    else if hasSub m ("video has been removed".toList) then
      .error (.videoUnavailable "Video has been removed")
    else
      .error (.videoUnavailable ("Cannot access video: " ++ msg))
  | .otherError msg => .error (.base ("Validation failed: " ++ msg))
  | .success none =>
    .error (.base "Validation failed: Video is unavailable or cannot be accessed")
  | .success (some info) =>
    match pyGetDuration info.duration with
    | some d =>
      if d != 0 && decide (MAX_VIDEO_DURATION < d) then
        .error (.base ("Validation failed: " ++ tooLongMsg d))
      else .ok (mkVideoInfo info (some d))
    | none => .ok (mkVideoInfo info none)

/-! ## Audio acquirer (`download_audio`, `app.py` lines 135-226) -/

/-- The files present at the output prefix, as an association list from
candidate extension to byte size. -/
abbrev FS := List (String × Nat)

def fsLookup : FS → String → Option Nat
  | [], _ => none
  | (e, s) :: t, ext => if e = ext then some s else fsLookup t ext

/-- `os.remove(output_path + ext)`. -/
def fsRemove (fs : FS) (ext : String) : FS :=
  fs.filter (fun p => !(p.1 == ext))

structure Strategy where
  name : String
  format : String
  quality : String
deriving DecidableEq, Repr

/-- The static fallback list of `app.py` lines 142-163, in declared
order. -/
def strategies : List Strategy :=
  [ ⟨"High Quality Audio", "bestaudio[filesize<50M]/bestaudio[ext=m4a]/bestaudio", "192"⟩
  , ⟨"Medium Quality Audio", "bestaudio[filesize<30M]/bestaudio", "128"⟩
  , ⟨"Low Quality Audio", "worstaudio[filesize<20M]/worstaudio", "96"⟩
  , ⟨"Fallback - Any Audio", "best[filesize<50M]/best", "64"⟩ ]

def possible_extensions : List String :=
  [".mp3", ".m4a", ".webm", ".mp4", ".wav", ".opus"]

/-- The search of `app.py` lines 196-201: first candidate extension whose
file exists at the output prefix, with its size. -/
def findFileAux : List String → FS → Option (String × Nat)
  | [], _ => none
  | e :: rest, fs =>
    match fsLookup fs e with
    | some s => some (e, s)
    | none => findFileAux rest fs

def findFile (fs : FS) : Option (String × Nat) :=
  findFileAux possible_extensions fs

/-- Behaviour of one `ydl.download([url])` call for strategy `i`:
given the files currently at the output prefix it yields
`(some msg, fs')` when the call raises with message `msg`, or
`(none, fs')` when it returns, `fs'` being the files afterward. -/
abbrev Engine := Nat → FS → Option String × FS

/-- Result of one iteration of the strategy loop body (`app.py` lines
166-213): either an in-bounds artifact is returned, or the iteration
fails with the message of the exception it raised (too large / too small
files are deleted first, per lines 203-209). -/
inductive StratResult
  | success (ext : String) (size : Nat) (fs : FS)
  | failure (msg : String) (fs : FS)
deriving Repr

def tryStrategy (call : FS → Option String × FS) (fs : FS) : StratResult :=
  match call fs with
  | (some m, fs1) => .failure m fs1
  | (none, fs1) =>
    match findFile fs1 with
    | none => .failure "No output file found after download" fs1
    | some (ext, size) =>
      if MAX_FILE_SIZE < size then
        .failure ("Downloaded file is too large (" ++ toString (size / 1024 / 1024)
          ++ "MB). Maximum: " ++ toString (MAX_FILE_SIZE / 1024 / 1024) ++ "MB")
          (fsRemove fs1 ext)
      else if size < 1024 then
        .failure "Downloaded file is too small (likely empty)" (fsRemove fs1 ext)
      else .success ext size fs1

/-- The `for i, strategy in enumerate(strategies)` loop of `app.py` lines
165-224: on failure of the last strategy (`i == len(strategies) - 1`) the
last exception is wrapped into `DownloadError("All download strategies
failed: ...")`; otherwise the loop continues.  The `[]` case is the
unreachable line 226. -/
def downloadGo (eng : Engine) : Nat → List Strategy → FS → Except TError (String × Nat) × FS
  | _, [], fs => (.error (.download "Failed to download audio with all strategies"), fs)
  | i, _ :: rest, fs =>
    match tryStrategy (eng i) fs with
    | .success ext size fs1 => (.ok (ext, size), fs1)
    | .failure m fs1 =>
      if rest.isEmpty then
        (.error (.download ("All download strategies failed: " ++ m)), fs1)
      else downloadGo eng (i + 1) rest fs1

/-- `app.py` lines 135-226.  `ffmpeg` is the result of `shutil.which`;
when absent, `check_ffmpeg` raises a bare `YouTubeTranscriberError`. -/
def download_audio (ffmpeg : Option String) (eng : Engine) (fs : FS) :
    Except TError (String × Nat) × FS :=
  match ffmpeg with
  | none => (.error (.base "FFmpeg not found. Please install FFmpeg."), fs)
  | some _ => downloadGo eng 0 strategies fs

/-- Hypothesis device for claims C7/C8: run the first `k` strategies from
index `i`, requiring each to fail with *no file produced* (the call raised,
or it returned and no candidate file exists); yields the threaded
filesystem, or `none` if some strategy did not fail that way. -/
def cleanFailsThrough (eng : Engine) : Nat → Nat → FS → Option FS
  | _, 0, fs => some fs
  | i, k + 1, fs =>
    match eng i fs with
    | (some _, fs1) => cleanFailsThrough eng (i + 1) k fs1
    | (none, fs1) =>
      if findFile fs1 = none then cleanFailsThrough eng (i + 1) k fs1
      else none

/-- Hypothesis device for claim C8: every strategy in the list fails
(in the general sense of `tryStrategy`), yielding the message of the last
failure and the final filesystem. -/
def allFailLast (eng : Engine) : Nat → List Strategy → FS → Option (String × FS)
  | _, [], _ => none
  | i, _ :: rest, fs =>
    match tryStrategy (eng i) fs with
    | .success _ _ _ => none
    | .failure m fs1 =>
      if rest.isEmpty then some (m, fs1)
      else allFailLast eng (i + 1) rest fs1

/-! ## Transcription client (`upload_to_assemblyai`, `app.py` lines
228-311) -/

/-- One `requests` call against the upload or transcript endpoint:
a transport error (`requests.exceptions.RequestException`), or a
response with status code, `.text` body and the JSON field the code
reads (`upload_url` resp. `id`). -/
inductive HttpResp
  | transportError (msg : String)
  | response (code : Nat) (text : String) (payload : String)
deriving Repr

/-- One poll of `GET /v2/transcript/{id}`: a transport error, or a
response carrying status code, `.text`, and the JSON fields `status`,
`text` and `error` (the latter absent unless the service reports one). -/
inductive PollResp
  | transportError (msg : String)
  | response (code : Nat) (text : String) (status : String)
      (tText : String) (tError : Option String)
deriving Repr

/-- An exception travelling from the body of the `try` at `app.py` lines
243-307 to its handlers: a `requests` transport error, or any raised
exception (`str(e)` recorded). -/
inductive InnerErr
  | reqExc (msg : String)
  | raised (msg : String)
deriving DecidableEq, Repr

/-- The two `except` clauses of `app.py` lines 308-311.  Note that a
`TranscriptionError` raised inside the `try` is itself caught by
`except Exception` and re-wrapped with the prefix `Transcription error: `. -/
def wrapAssemblyai : InnerErr → TError
  | .reqExc m => .transcription ("Network error: " ++ m)
  | .raised m => .transcription ("Transcription error: " ++ m)

/-- The polling loop of `app.py` lines 281-306.  `elapsed` is
`time.time() - start_time` at the top-of-loop check; each further
iteration adds the poll's own duration `dur n` plus the 5-second sleep.
The budget check precedes every poll. -/
def pollLoop (poll : Nat → PollResp) (dur : Nat → Nat) (n : Nat) (elapsed : Nat) :
    Except InnerErr String :=
  if _h : TRANSCRIPTION_TIMEOUT < elapsed then
    .error (.raised "Transcription timed out")
  else
    match poll n with
    | .transportError m => .error (.reqExc m)
    | .response code text status tTxt tErr =>
      if code ≠ 200 then .error (.raised ("Status check failed: " ++ text))
      else if status = "completed" then .ok tTxt
      else if status = "error" then
        .error (.raised ("Transcription failed: " ++ tErr.getD "Unknown error"))
      else pollLoop poll dur (n + 1) (elapsed + dur n + 5)
termination_by TRANSCRIPTION_TIMEOUT + 1 - elapsed
decreasing_by simp only [TRANSCRIPTION_TIMEOUT] at *; omega

/-- The oracle for one run of `upload_to_assemblyai`. -/
structure UploadEnv where
  apiKey : Option String
  upload : HttpResp
  submit : HttpResp
  poll : Nat → PollResp
  pollDur : Nat → Nat

/-- `app.py` lines 228-311.  The API-key and 200MB-precondition checks
precede the `try` block, so those two errors are not re-wrapped. -/
def upload_to_assemblyai (env : UploadEnv) (fileSize : Nat) : Except TError String :=
  match env.apiKey with
  | none => .error (.transcription "AssemblyAI API key not configured")
  | some _ =>
    if 200 * 1024 * 1024 < fileSize then
      .error (.transcription "Audio file is too large for transcription (>200MB)")
    else
      let inner : Except InnerErr String :=
        match env.upload with
        | .transportError m => .error (.reqExc m)
        | .response code text _ =>
          if code ≠ 200 then .error (.raised ("Upload failed: " ++ text))
          else
            match env.submit with
            | .transportError m => .error (.reqExc m)
            | .response code2 text2 _ =>
              if code2 ≠ 200 then
                .error (.raised ("Transcription request failed: " ++ text2))
              else pollLoop env.poll env.pollDur 0 0
      match inner with
      | .ok t => .ok t
      | .error e => .error (wrapAssemblyai e)

/-- Elapsed time at the top-of-loop check before poll `k`, when the loop
started at elapsed time 0. -/
def elapsedAt (dur : Nat → Nat) : Nat → Nat
  | 0 => 0
  | k + 1 => elapsedAt dur k + dur k + 5

/-- A poll response on which the loop continues: HTTP 200 with a status
that is neither `completed` nor `error`. -/
def pollNonTerminal : PollResp → Prop
  | .transportError _ => False
  | .response code _ status _ _ => code = 200 ∧ status ≠ "completed" ∧ status ≠ "error"

instance : DecidablePred pollNonTerminal := fun r => by
  cases r <;> simp only [pollNonTerminal] <;> infer_instance

/-! ## Orchestrator and API route (`cleanup_temp_files`, `api_transcribe`,
`app.py` lines 313-327 and 385-436) -/

/-- Per-request filesystem resources: whether the temporary directory
exists and whether the audio artifact file (inside it) exists. -/
structure ReqState where
  tempDir : Bool
  audioFile : Bool
deriving DecidableEq, Repr

/-- Whether the `os.remove` / `shutil.rmtree` calls of
`cleanup_temp_files` succeed; a failure is caught and logged
(`app.py` lines 319-320, 326-327). -/
structure CleanupFlags where
  rmAudioOk : Bool
  rmDirOk : Bool
deriving DecidableEq, Repr

/-- `app.py` lines 313-327.  `dirCreated` / `audioSet` model
`temp_dir is not None` / `audio_file is not None`.  Removing the
directory removes the artifact inside it as well. -/
def cleanup_temp_files (dirCreated audioSet : Bool) (fl : CleanupFlags)
    (st : ReqState) : ReqState :=
  let st1 :=
    if audioSet && st.audioFile && fl.rmAudioOk then
      { st with audioFile := false }
    else st
  if dirCreated && st1.tempDir && fl.rmDirOk then
    { tempDir := false, audioFile := false }
  else st1

/-- The oracle for one request's pipeline: the probe's extraction
outcome, the resolved ffmpeg path, the download engine, and the
AssemblyAI interactions. -/
structure PipelineEnv where
  extract : ExtractOutcome
  ffmpeg : Option String
  eng : Engine
  upload : UploadEnv

/-- Result of the `try` block of `api_transcribe` (`app.py` lines
399-417), together with which resources were allocated on the way. -/
structure PipeOut where
  res : Except TError (String × VideoInfo)
  dirCreated : Bool
  audioSet : Bool
  st : ReqState

/-- The `try` body of `app.py` lines 399-417: probe, `tempfile.mkdtemp()`,
download into the fresh (empty) directory, transcribe. -/
def tryPipeline (env : PipelineEnv) : PipeOut :=
  match validate_video_info env.extract with
  | .error e => ⟨.error e, false, false, ⟨false, false⟩⟩
  | .ok info =>
    match download_audio env.ffmpeg env.eng [] with
    | (.error e, _) => ⟨.error e, true, false, ⟨true, false⟩⟩
    | (.ok (_ext, size), _) =>
      match upload_to_assemblyai env.upload size with
      | .error e => ⟨.error e, true, true, ⟨true, true⟩⟩
      | .ok text => ⟨.ok (text, info), true, true, ⟨true, true⟩⟩

/-- The JSON body of an API response. -/
inductive ApiBody
  | errorBody (msg : String)
  | successBody (transcript : String) (info : VideoInfo)
deriving DecidableEq, Repr

/-- The `except` chain of `api_transcribe` (`app.py` lines 419-433):
HTTP status plus JSON body for each classified error. -/
def apiErrorResponse : TError → Nat × ApiBody
  | .videoUnavailable m => (400, .errorBody m)
  | .videoTooLong m => (400, .errorBody m)
  | .download m => (500, .errorBody ("Download failed: " ++ m))
  | .transcription m => (500, .errorBody ("Transcription failed: " ++ m))
  | .base _ => (500, .errorBody "An unexpected error occurred. Please try again.")
  | .other _ => (500, .errorBody "An unexpected error occurred. Please try again.")

/-- `app.py` lines 385-436 (`POST /api/transcribe`): returns the HTTP
status with JSON body, and the final state of the request's filesystem
resources after the `finally` cleanup.  The two early 400 returns happen
before any resource is allocated. -/
def api_transcribe (raw : String) (env : PipelineEnv) (fl : CleanupFlags) :
    (Nat × ApiBody) × ReqState :=
  let url := pyStrip raw
  if url = "" then
    ((400, .errorBody "Please enter a YouTube URL"), ⟨false, false⟩)
  else if !(is_valid_youtube_url url) then
    ((400, .errorBody "Please enter a valid YouTube URL"), ⟨false, false⟩)
  else
    let p := tryPipeline env
    let final := cleanup_temp_files p.dirCreated p.audioSet fl p.st
    match p.res with
    | .ok (t, info) => ((200, .successBody t info), final)
    | .error e => (apiErrorResponse e, final)

/-- Well-formedness of a video identifier for the positive direction of
claim C9: nonempty, drawn from the identifier alphabet (alphanumerics,
`-`, `_`). -/
def idOk (id : String) : Prop :=
  id.toList ≠ [] ∧
    ∀ c ∈ id.toList, (c.isAlpha || c.isDigit || c == '-' || c == '_') = true

instance : DecidablePred idOk := fun s => by
  unfold idOk; infer_instance

/-! ## Theorems: audio acquirer (claims C6, C7, C8) -/

theorem tryStrategy_success_bounds {call : FS → Option String × FS} {fs fs1 : FS}
    {ext : String} {size : Nat} (h : tryStrategy call fs = .success ext size fs1) :
    1024 ≤ size ∧ size ≤ MAX_FILE_SIZE := by
  unfold tryStrategy at h
  split at h
  · exact absurd h (by simp)
  · split at h
    · exact absurd h (by simp)
    · split at h
      · exact absurd h (by simp)
      · split at h
        · exact absurd h (by simp)
        · rename_i hbig hsmall
          obtain ⟨rfl, rfl, rfl⟩ : _ ∧ _ ∧ _ := by
            injection h with h1 h2 h3; exact ⟨h1, h2, h3⟩
          omega

theorem downloadGo_ok_bounds (eng : Engine) :
    ∀ (ss : List Strategy) (i : Nat) (fs : FS) (ext : String) (size : Nat),
    (downloadGo eng i ss fs).1 = .ok (ext, size) →
    1024 ≤ size ∧ size ≤ MAX_FILE_SIZE := by
  intro ss
  induction ss with
  | nil => intro i fs ext size h; simp [downloadGo] at h
  | cons s rest ih =>
    intro i fs ext size h
    rw [downloadGo] at h
    rcases ht : tryStrategy (eng i) fs with ⟨e, sz, fs1⟩ | ⟨m, fs1⟩ <;> rw [ht] at h
    · simp only at h
      obtain ⟨he, hs⟩ : e = ext ∧ sz = size := by
        have := congrArg Prod.fst (rfl : ((Except.ok (e, sz) : Except TError (String × Nat)), fs1) = _)
        simp at h
        exact ⟨h.1, h.2⟩
      subst he; subst hs
      exact tryStrategy_success_bounds ht
    · by_cases hr : rest.isEmpty
      · simp [hr] at h
      · simp only [hr, if_false, Bool.false_eq_true] at h
        exact ih (i + 1) fs1 ext size h

theorem downloadGo_reject_continues (eng : Engine) (i : Nat) (s : Strategy)
    (rest : List Strategy) (fs fs1 : FS) (ext : String) (size : Nat)
    (hc : eng i fs = (none, fs1)) (hf : findFile fs1 = some (ext, size))
    (hout : MAX_FILE_SIZE < size ∨ size < 1024) (hrest : rest ≠ []) :
    downloadGo eng i (s :: rest) fs = downloadGo eng (i + 1) rest (fsRemove fs1 ext) := by
  have hr : rest.isEmpty = false := by cases rest <;> simp_all
  have hMAX : (1024 : Nat) ≤ MAX_FILE_SIZE := by decide
  rcases hout with hbig | hsmall
  · have htry : tryStrategy (eng i) fs =
        .failure ("Downloaded file is too large (" ++ toString (size / 1024 / 1024)
          ++ "MB). Maximum: " ++ toString (MAX_FILE_SIZE / 1024 / 1024) ++ "MB")
          (fsRemove fs1 ext) := by
      simp [tryStrategy, hc, hf, hbig]
    rw [downloadGo, htry]
    simp [hr]
  · have hnb : ¬ MAX_FILE_SIZE < size := by omega
    have htry : tryStrategy (eng i) fs =
        .failure "Downloaded file is too small (likely empty)" (fsRemove fs1 ext) := by
      simp [tryStrategy, hc, hf, hnb, hsmall]
    rw [downloadGo, htry]
    simp [hr]

/-- C6: the Audio Acquirer never returns an artifact below 1KB or above
100MB; a strategy that produces an out-of-bounds file has that file
deleted and, when a further strategy remains, the loop proceeds to it
(the continuation runs on the filesystem with the file removed). -/
theorem c6_acquirer_size_gate :
    (∀ (ff : String) (eng : Engine) (fs : FS) (ext : String) (size : Nat),
        (download_audio (some ff) eng fs).1 = .ok (ext, size) →
        1024 ≤ size ∧ size ≤ MAX_FILE_SIZE)
    ∧ (∀ (eng : Engine) (i : Nat) (s : Strategy) (rest : List Strategy)
        (fs fs1 : FS) (ext : String) (size : Nat),
        eng i fs = (none, fs1) → findFile fs1 = some (ext, size) →
        (MAX_FILE_SIZE < size ∨ size < 1024) → rest ≠ [] →
        downloadGo eng i (s :: rest) fs = downloadGo eng (i + 1) rest (fsRemove fs1 ext)) := by
  constructor
  · intro ff eng fs ext size h
    exact downloadGo_ok_bounds eng strategies 0 fs ext size h
  · intro eng i s rest fs fs1 ext size hc hf hout hrest
    exact downloadGo_reject_continues eng i s rest fs fs1 ext size hc hf hout hrest

theorem c6_acquirer_size_gate_witness :
    (1024 ≤ 2048 ∧ 2048 ≤ MAX_FILE_SIZE)
    ∧ downloadGo (fun _ _ => (none, [(".mp3", 5)])) 0 strategies []
        = downloadGo (fun _ _ => (none, [(".mp3", 5)])) 1 strategies.tail
            (fsRemove [(".mp3", 5)] ".mp3") :=
  ⟨c6_acquirer_size_gate.1 "ffmpeg" (fun _ _ => (none, [(".mp3", 2048)])) []
      ".mp3" 2048 rfl,
   c6_acquirer_size_gate.2 (fun _ _ => (none, [(".mp3", 5)])) 0 _ _ [] [(".mp3", 5)]
      ".mp3" 5 rfl rfl (Or.inr (by decide)) (List.cons_ne_nil _ _)⟩

theorem downloadGo_first_success {ext : String} {size : Nat} {fs2 : FS} :
    ∀ (k : Nat) (ss : List Strategy) (i : Nat) (fs fs1 : FS) (eng eng' : Engine),
    (∀ j, j ≤ i + k → eng' j = eng j) →
    k < ss.length →
    cleanFailsThrough eng i k fs = some fs1 →
    tryStrategy (eng (i + k)) fs1 = .success ext size fs2 →
    downloadGo eng' i ss fs = (.ok (ext, size), fs2) := by
  intro k
  induction k with
  | zero =>
    intro ss i fs fs1 eng eng' hagree hlen hclean htry
    cases ss with
    | nil => simp at hlen
    | cons s rest =>
      have hfs : fs = fs1 := by simpa [cleanFailsThrough] using hclean
      subst hfs
      have he : eng' i = eng i := hagree i (by omega)
      have htry' : tryStrategy (eng' i) fs = .success ext size fs2 := by
        rw [he]
        simpa using htry
      rw [downloadGo, htry']
  | succ k ih =>
    intro ss i fs fs1 eng eng' hagree hlen hclean htry
    cases ss with
    | nil => simp at hlen
    | cons s rest =>
      have hrest : rest.isEmpty = false := by
        have : k < rest.length := by simpa using Nat.lt_of_succ_lt_succ hlen
        cases rest
        · simp at this
        · simp
      have he : eng' i = eng i := hagree i (by omega)
      have hidx : i + 1 + k = i + (k + 1) := by omega
      rw [cleanFailsThrough] at hclean
      rcases hc : eng i fs with ⟨err, fsA⟩
      rw [hc] at hclean
      cases err with
      | some m =>
        simp only at hclean
        have htry' : tryStrategy (eng' i) fs = .failure m fsA := by
          simp [tryStrategy, he, hc]
        rw [downloadGo, htry']
        simp only [hrest, Bool.false_eq_true, if_false]
        exact ih rest (i + 1) fsA fs1 eng eng'
          (fun j hj => hagree j (by omega))
          (by simpa using Nat.lt_of_succ_lt_succ hlen)
          hclean (by rw [hidx]; exact htry)
      | none =>
        simp only at hclean
        by_cases hff : findFile fsA = none
        · rw [if_pos hff] at hclean
          have htry' : tryStrategy (eng' i) fs =
              .failure "No output file found after download" fsA := by
            simp [tryStrategy, he, hc, hff]
          rw [downloadGo, htry']
          simp only [hrest, Bool.false_eq_true, if_false]
          exact ih rest (i + 1) fsA fs1 eng eng'
            (fun j hj => hagree j (by omega))
            (by simpa using Nat.lt_of_succ_lt_succ hlen)
            hclean (by rw [hidx]; exact htry)
        · rw [if_neg hff] at hclean
          exact absurd hclean (by simp)

/-- C7: if strategies `0..k-1` all fail with no output file produced (the
call raised, or no candidate file exists afterward) and strategy `k`
succeeds with an in-bounds file, the acquirer returns exactly strategy
`k`'s artifact; moreover the result does not depend on the engine's
behaviour at strategies beyond `k` (strategy `k+1` is never invoked).
The loop ranges over the static `strategies` list in declared order. -/
theorem c7_strict_strategy_order (ff : String) (eng : Engine) (k : Nat)
    (fs fs1 fs2 : FS) (ext : String) (size : Nat)
    (hk : k < strategies.length)
    (hclean : cleanFailsThrough eng 0 k fs = some fs1)
    (htry : tryStrategy (eng k) fs1 = .success ext size fs2) :
    (download_audio (some ff) eng fs).1 = .ok (ext, size) ∧
    ∀ eng' : Engine, (∀ j, j ≤ k → eng' j = eng j) →
      download_audio (some ff) eng' fs = download_audio (some ff) eng fs := by
  have htry0 : tryStrategy (eng (0 + k)) fs1 = .success ext size fs2 := by
    simpa using htry
  have base : downloadGo eng 0 strategies fs = (.ok (ext, size), fs2) :=
    downloadGo_first_success k strategies 0 fs fs1 eng eng
      (fun _ _ => rfl) hk hclean htry0
  constructor
  · show (downloadGo eng 0 strategies fs).1 = .ok (ext, size)
    rw [base]
  · intro eng' hagree
    have base' : downloadGo eng' 0 strategies fs = (.ok (ext, size), fs2) :=
      downloadGo_first_success k strategies 0 fs fs1 eng eng'
        (fun j hj => hagree j (by omega)) hk hclean htry0
    show downloadGo eng' 0 strategies fs = downloadGo eng 0 strategies fs
    rw [base, base']

theorem c7_strict_strategy_order_witness :
    (download_audio (some "ffmpeg")
        (fun i _ => if i = 0 then (some "e0", []) else (none, [(".mp3", 4000)]))
        []).1 = .ok (".mp3", 4000) :=
  (c7_strict_strategy_order "ffmpeg"
    (fun i _ => if i = 0 then (some "e0", []) else (none, [(".mp3", 4000)]))
    1 [] [] [(".mp3", 4000)] ".mp3" 4000 (by decide) rfl rfl).1

theorem downloadGo_all_fail (eng : Engine) :
    ∀ (ss : List Strategy) (i : Nat) (fs fs1 : FS) (m : String),
    allFailLast eng i ss fs = some (m, fs1) →
    downloadGo eng i ss fs =
      (.error (.download ("All download strategies failed: " ++ m)), fs1) := by
  intro ss
  induction ss with
  | nil => intro i fs fs1 m h; simp [allFailLast] at h
  | cons s rest ih =>
    intro i fs fs1 m h
    rw [allFailLast] at h
    rcases ht : tryStrategy (eng i) fs with ⟨e, sz, fsA⟩ | ⟨mm, fsA⟩ <;> rw [ht] at h
    · simp at h
    · rw [downloadGo, ht]
      simp only at h ⊢
      by_cases hr : rest.isEmpty
      · rw [if_pos hr] at h
        obtain ⟨hm, hfs⟩ : mm = m ∧ fsA = fs1 := by
          simpa using h
        subst hm; subst hfs
        simp [hr]
      · rw [if_neg hr] at h
        simp only [hr, Bool.false_eq_true, if_false]
        exact ih (i + 1) fsA fs1 m h

/-- C8: when every strategy fails to produce a valid artifact, the
acquirer raises `DownloadError` whose message wraps the message of the
last strategy's underlying failure. -/
theorem c8_all_fail_last_message (ff : String) (eng : Engine) (fs fs1 : FS)
    (m : String) (h : allFailLast eng 0 strategies fs = some (m, fs1)) :
    download_audio (some ff) eng fs =
      (.error (.download ("All download strategies failed: " ++ m)), fs1) :=
  downloadGo_all_fail eng strategies 0 fs fs1 m h

theorem c8_all_fail_last_message_witness :
    download_audio (some "ffmpeg") (fun i _ => (some ("err" ++ toString i), [])) [] =
      (.error (.download ("All download strategies failed: " ++ "err3")), []) :=
  c8_all_fail_last_message "ffmpeg" (fun i _ => (some ("err" ++ toString i), []))
    [] [] "err3" rfl

/-! ## Theorems: video metadata probe (claims C1, C10) -/

/-- C1 (code bug evidence): on a successful metadata extraction reporting
duration 3600 > 1800, `validate_video_info` raises the `VideoTooLongError`
of line 113 *inside* its own `try`, the blanket `except Exception` of
line 132 catches it, and the function actually raises a bare
`YouTubeTranscriberError` whose message is the VideoTooLong message with
the prefix `Validation failed: ` — the duration is reported as `60:00`
and the ceiling as `30 minutes`, but the error class `VideoTooLongError`
(mapped to HTTP 400 by the routes) never escapes the probe.  The second
conjunct shows that on this failing input the Acquirer is still never
invoked: the API response is independent of the download engine. -/
theorem c1_probe_toolong_bug_eval :
    validate_video_info (.success (some ⟨some (some 3600), some "t", some "u", some 7⟩))
      = .error (.base ("Validation failed: " ++ tooLongMsg 3600))
    ∧ tooLongMsg 3600 = "Video is too long (60:00). Maximum allowed: 30 minutes"
    ∧ ∀ (eng eng' : Engine) (ff ff' : Option String) (u : UploadEnv) (fl : CleanupFlags),
        api_transcribe "https://youtu.be/abc"
          ⟨.success (some ⟨some (some 3600), some "t", some "u", some 7⟩), ff, eng, u⟩ fl
        = api_transcribe "https://youtu.be/abc"
          ⟨.success (some ⟨some (some 3600), some "t", some "u", some 7⟩), ff', eng', u⟩ fl := by
  refine ⟨rfl, rfl, ?_⟩
  intro eng eng' ff ff' u fl
  rfl

/-- C10 counterexample: when the metadata reports `duration` present with
the value `None`, `info.get('duration', 0)` yields `None`, not `0`, and
the returned dict's duration field is `None` — the claim's "duration
field defaults to 0" is false for this input (while no VideoTooLong error
is raised). -/
theorem c10_none_duration_counterexample :
    validate_video_info (.success (some ⟨some none, some "t", some "u", some 7⟩))
      = .ok ⟨"t", none, "u", 7⟩
    ∧ (⟨"t", none, "u", 7⟩ : VideoInfo).duration ≠ some 0 := by
  exact ⟨rfl, by simp⟩

/-- C10 (amended): for a missing or zero duration the probe returns
metadata whose duration field is `0`; for a duration reported as `None`
the probe still does not reject for length but passes `None` through
unchanged; and the length gate never fires for any reported duration
`d ≤ 1800`. -/
theorem c10_degenerate_duration_amended (info : InfoDict) :
    (info.duration = none →
      validate_video_info (.success (some info)) = .ok (mkVideoInfo info (some 0)))
    ∧ (info.duration = some none →
      validate_video_info (.success (some info)) = .ok (mkVideoInfo info none))
    ∧ (info.duration = some (some 0) →
      validate_video_info (.success (some info)) = .ok (mkVideoInfo info (some 0)))
    ∧ (∀ d : Nat, info.duration = some (some d) → d ≤ MAX_VIDEO_DURATION →
      validate_video_info (.success (some info)) = .ok (mkVideoInfo info (some d))) := by
  refine ⟨?_, ?_, ?_, ?_⟩
  · intro h
    simp [validate_video_info, h, pyGetDuration]
  · intro h
    simp [validate_video_info, h, pyGetDuration]
  · intro h
    simp [validate_video_info, h, pyGetDuration]
  · intro d h hle
    have : ¬ MAX_VIDEO_DURATION < d := by omega
    simp [validate_video_info, h, pyGetDuration, this]

theorem c10_degenerate_duration_amended_witness :
    validate_video_info (.success (some ⟨some none, none, none, none⟩))
      = .ok (mkVideoInfo ⟨some none, none, none, none⟩ none) :=
  (c10_degenerate_duration_amended ⟨some none, none, none, none⟩).2.1 rfl

/-! ## Theorems: transcription polling loop (claim C5) -/

theorem pollLoop_timeout (poll : Nat → PollResp) (dur : Nat → Nat)
    (n elapsed : Nat) (h : TRANSCRIPTION_TIMEOUT < elapsed) :
    pollLoop poll dur n elapsed = .error (.raised "Transcription timed out") := by
  rw [pollLoop.eq_def, dif_pos h]

theorem pollLoop_reach (poll : Nat → PollResp) (dur : Nat → Nat) :
    ∀ (k : Nat),
    (∀ j, j ≤ k → elapsedAt dur j ≤ TRANSCRIPTION_TIMEOUT) →
    (∀ j, j < k → pollNonTerminal (poll j)) →
    pollLoop poll dur 0 0 = pollLoop poll dur k (elapsedAt dur k) := by
  intro k
  induction k with
  | zero => intro _ _; rfl
  | succ k ih =>
    intro hbud hnt
    rw [ih (fun j hj => hbud j (by omega)) (fun j hj => hnt j (by omega))]
    have hb : ¬ TRANSCRIPTION_TIMEOUT < elapsedAt dur k := by
      have := hbud k (by omega)
      omega
    rcases hp : poll k with m | ⟨code, text, status, tTxt, tErr⟩
    · have := hnt k (by omega)
      rw [hp] at this
      exact absurd this id
    · obtain ⟨h200, hc, he⟩ : code = 200 ∧ status ≠ "completed" ∧ status ≠ "error" := by
        have := hnt k (by omega)
        rw [hp] at this
        exact this
      subst h200
      rw [pollLoop.eq_def, dif_neg hb, hp]
      simp only [ne_eq, not_true_eq_false, reduceIte, if_neg hc, if_neg he]
      rfl

/-- C5: the polling loop returns the text at the first poll whose status
is `completed`; at the first poll whose status is `error` it raises
`TranscriptionError` carrying the service-provided message (re-wrapped by
the outer `except Exception` with the prefix `Transcription error: `); a
transport failure of a poll is fatal at once (`Network error` via
`except RequestException`, no retry); and whenever the elapsed time at
the top-of-loop check exceeds the 600-second budget the loop raises the
timeout error immediately, issuing no further poll.  The budget
hypothesis `hbud` says the wall-clock stayed within budget at every
check up to poll `k`. -/
theorem c5_poll_loop_behaviour (poll : Nat → PollResp) (dur : Nat → Nat) (k : Nat)
    (hbud : ∀ j, j ≤ k → elapsedAt dur j ≤ TRANSCRIPTION_TIMEOUT)
    (hnt : ∀ j, j < k → pollNonTerminal (poll j)) :
    (∀ (text bodyTxt : String) (e : Option String),
        poll k = .response 200 bodyTxt "completed" text e →
        pollLoop poll dur 0 0 = .ok text)
    ∧ (∀ (m bodyTxt tTxt : String),
        poll k = .response 200 bodyTxt "error" tTxt (some m) →
        pollLoop poll dur 0 0 = .error (.raised ("Transcription failed: " ++ m))
        ∧ wrapAssemblyai (.raised ("Transcription failed: " ++ m))
          = .transcription ("Transcription error: " ++ ("Transcription failed: " ++ m)))
    ∧ (∀ m : String, poll k = .transportError m →
        pollLoop poll dur 0 0 = .error (.reqExc m)
        ∧ wrapAssemblyai (.reqExc m) = .transcription ("Network error: " ++ m))
    ∧ (∀ (n elapsed : Nat), TRANSCRIPTION_TIMEOUT < elapsed →
        pollLoop poll dur n elapsed = .error (.raised "Transcription timed out")) := by
  have hreach : pollLoop poll dur 0 0 = pollLoop poll dur k (elapsedAt dur k) :=
    pollLoop_reach poll dur k hbud hnt
  have hb : ¬ TRANSCRIPTION_TIMEOUT < elapsedAt dur k := by
    have := hbud k (by omega)
    omega
  refine ⟨?_, ?_, ?_, ?_⟩
  · intro text bodyTxt e hp
    rw [hreach, pollLoop.eq_def, dif_neg hb, hp]
    simp
  · intro m bodyTxt tTxt hp
    refine ⟨?_, rfl⟩
    rw [hreach, pollLoop.eq_def, dif_neg hb, hp]
    simp [Option.getD]
  · intro m hp
    refine ⟨?_, rfl⟩
    rw [hreach, pollLoop.eq_def, dif_neg hb, hp]
  · intro n elapsed h
    exact pollLoop_timeout poll dur n elapsed h

theorem c5_poll_loop_behaviour_witness :
    pollLoop
      (fun n => if n = 0 then .response 200 "" "processing" "" none
                else .response 200 "" "completed" "hello world" none)
      (fun _ => 1) 0 0 = .ok "hello world"
    ∧ pollLoop
      (fun n => if n = 0 then .response 200 "" "processing" "" none
                else .response 200 "" "completed" "hello world" none)
      (fun _ => 1) 3 601 = .error (.raised "Transcription timed out") := by
  have h := c5_poll_loop_behaviour
    (fun n => if n = 0 then .response 200 "" "processing" "" none
              else .response 200 "" "completed" "hello world" none)
    (fun _ => 1) 1
    (by intro j hj; interval_cases j <;> simp [elapsedAt, TRANSCRIPTION_TIMEOUT])
    (by intro j hj; interval_cases j; simp [pollNonTerminal])
  exact ⟨h.1 "hello world" "" none rfl, h.2.2.2 3 601 (by simp [TRANSCRIPTION_TIMEOUT])⟩

/-! ## Theorems: API route and resource cleanup (claims C2, C4) -/

theorem tryPipeline_state_eq (env : PipelineEnv) :
    (tryPipeline env).st = ⟨(tryPipeline env).dirCreated, (tryPipeline env).audioSet⟩ := by
  unfold tryPipeline
  split
  · rfl
  · split
    · rfl
    · split <;> rfl

theorem cleanup_clears (dirC aS : Bool) :
    cleanup_temp_files dirC aS ⟨true, true⟩ ⟨dirC, aS⟩ = ⟨false, false⟩ := by
  cases dirC <;> cases aS <;> rfl

/-- C4: on every exit path of an API request — success, any classified
pipeline error, or an unanticipated failure — the `finally` cleanup runs;
when the removal operations themselves succeed, the temporary directory
and the audio artifact are absent afterward; and a failure of a removal
is swallowed (logged), never raised: the HTTP response is independent of
whether the removals succeed. -/
theorem c4_cleanup_every_path (raw : String) (env : PipelineEnv) (fl : CleanupFlags) :
    (fl.rmAudioOk = true → fl.rmDirOk = true →
      (api_transcribe raw env fl).2 = ⟨false, false⟩)
    ∧ (∀ fl' : CleanupFlags, (api_transcribe raw env fl).1 = (api_transcribe raw env fl').1) := by
  constructor
  · intro ha hd
    obtain ⟨⟩ : fl = ⟨true, true⟩ := by
      cases fl
      simp_all
    unfold api_transcribe
    by_cases h1 : pyStrip raw = ""
    · simp [h1]
    · by_cases h2 : is_valid_youtube_url (pyStrip raw)
      · simp only [h1, if_false, h2, Bool.not_true, Bool.false_eq_true]
        rw [tryPipeline_state_eq env, cleanup_clears]
        cases hres : (tryPipeline env).res with
        | error e => rfl
        | ok v => rcases v with ⟨t, info⟩; rfl
      · simp only [Bool.not_eq_true] at h2
        simp [h1, h2]
  · intro fl'
    unfold api_transcribe
    by_cases h1 : pyStrip raw = ""
    · simp [h1]
    · by_cases h2 : is_valid_youtube_url (pyStrip raw)
      · simp only [h1, if_false, h2, Bool.not_true, Bool.false_eq_true]
        cases hres : (tryPipeline env).res with
        | error e => rfl
        | ok v => rcases v with ⟨t, info⟩; rfl
      · simp only [Bool.not_eq_true] at h2
        simp [h1, h2]

theorem c4_cleanup_every_path_witness :
    (api_transcribe "https://youtu.be/abc"
      ⟨.success (some ⟨some (some 60), some "t", some "u", some 7⟩), none,
        fun _ fs => (none, fs), ⟨none, .transportError "x", .transportError "x",
        fun _ => .transportError "x", fun _ => 0⟩⟩
      ⟨true, true⟩).2 = ⟨false, false⟩ :=
  (c4_cleanup_every_path "https://youtu.be/abc"
    ⟨.success (some ⟨some (some 60), some "t", some "u", some 7⟩), none,
      fun _ fs => (none, fs), ⟨none, .transportError "x", .transportError "x",
      fun _ => .transportError "x", fun _ => 0⟩⟩
    ⟨true, true⟩).1 rfl rfl

/-- C2: the API route's status mapping.  The first six conjuncts are the
`except` chain of `api_transcribe`: `VideoUnavailable` and `VideoTooLong`
map to HTTP 400, `Download`, `Transcription` and unexpected errors map to
HTTP 500.  The remaining conjuncts compose it end to end: URL-validation
failures give 400, a pipeline success gives 200 with
`{success, transcript, video_info}`, and any pipeline error is answered
exactly by the `except` chain. -/
theorem c2_api_status_mapping :
    (∀ m, apiErrorResponse (.videoUnavailable m) = (400, .errorBody m))
    ∧ (∀ m, apiErrorResponse (.videoTooLong m) = (400, .errorBody m))
    ∧ (∀ m, apiErrorResponse (.download m) = (500, .errorBody ("Download failed: " ++ m)))
    ∧ (∀ m, apiErrorResponse (.transcription m)
        = (500, .errorBody ("Transcription failed: " ++ m)))
    ∧ (∀ m, apiErrorResponse (.base m)
        = (500, .errorBody "An unexpected error occurred. Please try again."))
    ∧ (∀ m, apiErrorResponse (.other m)
        = (500, .errorBody "An unexpected error occurred. Please try again."))
    ∧ (∀ (raw : String) (env : PipelineEnv) (fl : CleanupFlags), pyStrip raw = "" →
        (api_transcribe raw env fl).1 = (400, .errorBody "Please enter a YouTube URL"))
    ∧ (∀ (raw : String) (env : PipelineEnv) (fl : CleanupFlags),
        pyStrip raw ≠ "" → is_valid_youtube_url (pyStrip raw) = false →
        (api_transcribe raw env fl).1 = (400, .errorBody "Please enter a valid YouTube URL"))
    ∧ (∀ (raw : String) (env : PipelineEnv) (fl : CleanupFlags) (t : String) (info : VideoInfo),
        pyStrip raw ≠ "" → is_valid_youtube_url (pyStrip raw) = true →
        (tryPipeline env).res = .ok (t, info) →
        (api_transcribe raw env fl).1 = (200, .successBody t info))
    ∧ (∀ (raw : String) (env : PipelineEnv) (fl : CleanupFlags) (e : TError),
        pyStrip raw ≠ "" → is_valid_youtube_url (pyStrip raw) = true →
        (tryPipeline env).res = .error e →
        (api_transcribe raw env fl).1 = apiErrorResponse e) := by
  refine ⟨fun m => rfl, fun m => rfl, fun m => rfl, fun m => rfl, fun m => rfl, fun m => rfl,
    ?_, ?_, ?_, ?_⟩
  · intro raw env fl h1
    simp [api_transcribe, h1]
  · intro raw env fl h1 h2
    simp [api_transcribe, h1, h2]
  · intro raw env fl t info h1 h2 hres
    unfold api_transcribe
    simp only [h1, if_false, h2, Bool.not_true, Bool.false_eq_true, hres]
  · intro raw env fl e h1 h2 hres
    unfold api_transcribe
    simp only [h1, if_false, h2, Bool.not_true, Bool.false_eq_true, hres]

theorem c2_api_status_mapping_witness :
    (api_transcribe "   " ⟨.success none, none, fun _ fs => (none, fs),
        ⟨none, .transportError "x", .transportError "x",
        fun _ => .transportError "x", fun _ => 0⟩⟩ ⟨true, true⟩).1
      = (400, .errorBody "Please enter a YouTube URL") :=
  c2_api_status_mapping.2.2.2.2.2.2.1 "   "
    ⟨.success none, none, fun _ fs => (none, fs),
      ⟨none, .transportError "x", .transportError "x",
      fun _ => .transportError "x", fun _ => 0⟩⟩ ⟨true, true⟩ rfl

/-! ## Theorems: string-scanning toolkit for the URL validator -/

theorem hasSub_nil_needle : ∀ l : List Char, hasSub l [] = true
  | [] => rfl
  | _ :: _ => rfl

theorem isLeadOf_append_left :
    ∀ (n l s : List Char), isLeadOf n l = true → isLeadOf n (l ++ s) = true
  | [], _, _, _ => rfl
  | _ :: _, [], _, h => by simp [isLeadOf] at h
  | a :: as, b :: bs, s, h => by
    simp only [isLeadOf, Bool.and_eq_true] at h
    simp only [List.cons_append, isLeadOf, Bool.and_eq_true]
    exact ⟨h.1, isLeadOf_append_left as bs s h.2⟩

theorem hasSub_append_left :
    ∀ (l s n : List Char), hasSub l n = true → hasSub (l ++ s) n = true
  | [], s, n, h => by
    have : n = [] := by
      cases n with
      | nil => rfl
      | cons a as => simp [hasSub, isLeadOf] at h
    subst this
    exact hasSub_nil_needle _
  | x :: t, s, n, h => by
    simp only [hasSub, Bool.or_eq_true] at h
    simp only [List.cons_append, hasSub, Bool.or_eq_true]
    rcases h with h | h
    · exact Or.inl (isLeadOf_append_left n (x :: t) s h)
    · exact Or.inr (hasSub_append_left t s n h)

theorem isLeadOf_map (f : Char → Char) :
    ∀ (n l : List Char), isLeadOf n l = true → isLeadOf (n.map f) (l.map f) = true
  | [], _, _ => rfl
  | _ :: _, [], h => by simp [isLeadOf] at h
  | a :: as, b :: bs, h => by
    simp only [isLeadOf, Bool.and_eq_true, beq_iff_eq] at h
    simp only [List.map_cons, isLeadOf, Bool.and_eq_true, beq_iff_eq]
    exact ⟨by rw [h.1], isLeadOf_map f as bs h.2⟩

theorem hasSub_map (f : Char → Char) :
    ∀ (l n : List Char), hasSub l n = true → hasSub (l.map f) (n.map f) = true
  | [], n, h => by
    have : n = [] := by
      cases n with
      | nil => rfl
      | cons a as => simp [hasSub, isLeadOf] at h
    subst this
    exact hasSub_nil_needle _
  | x :: t, n, h => by
    simp only [hasSub, Bool.or_eq_true] at h
    simp only [List.map_cons, hasSub, Bool.or_eq_true]
    rcases h with h | h
    · exact Or.inl (by simpa using isLeadOf_map f n (x :: t) h)
    · exact Or.inr (hasSub_map f t n h)

theorem isLeadOf_mem :
    ∀ (n l : List Char), isLeadOf n l = true → ∀ c ∈ n, c ∈ l
  | [], _, _, c, hc => by simp at hc
  | _ :: _, [], h, _, _ => by simp [isLeadOf] at h
  | a :: as, b :: bs, h, c, hc => by
    simp only [isLeadOf, Bool.and_eq_true, beq_iff_eq] at h
    rcases List.mem_cons.mp hc with rfl | hc
    · exact h.1 ▸ List.mem_cons_self _ _
    · exact List.mem_cons_of_mem _ (isLeadOf_mem as bs h.2 c hc)

theorem hasSub_mem :
    ∀ (l n : List Char), hasSub l n = true → ∀ c ∈ n, c ∈ l
  | [], n, h, c, hc => by
    cases n with
    | nil => simp at hc
    | cons a as => simp [hasSub, isLeadOf] at h
  | x :: t, n, h, c, hc => by
    simp only [hasSub, Bool.or_eq_true] at h
    rcases h with h | h
    · exact isLeadOf_mem n (x :: t) h c hc
    · exact List.mem_cons_of_mem _ (hasSub_mem t n h c hc)

theorem hasSub_false_of_missing_char {l n : List Char} {c : Char}
    (hcn : c ∈ n) (hcl : c ∉ l) : hasSub l n = false := by
  by_contra h
  simp only [Bool.not_eq_false] at h
  exact hcl (hasSub_mem l n h c hcn)

theorem isLeadOf_take :
    ∀ (n a b : List Char), isLeadOf n (a ++ b) = true → n.length ≤ a.length →
      isLeadOf n a = true
  | [], _, _, _, _ => rfl
  | x :: xs, [], b, h, hlen => by simp at hlen
  | x :: xs, a :: as, b, h, hlen => by
    simp only [List.cons_append, isLeadOf, Bool.and_eq_true] at h
    simp only [isLeadOf, Bool.and_eq_true]
    exact ⟨h.1, isLeadOf_take xs as b h.2 (by simpa using hlen)⟩

theorem isLeadOf_swap :
    ∀ (a n b : List Char), isLeadOf n (a ++ b) = true → a.length ≤ n.length →
      isLeadOf a n = true
  | [], _, _, _, _ => rfl
  | x :: xs, [], b, h, hlen => by simp at hlen
  | x :: xs, m :: ms, b, h, hlen => by
    simp only [List.cons_append, isLeadOf, Bool.and_eq_true, beq_iff_eq] at h
    simp only [isLeadOf, Bool.and_eq_true, beq_iff_eq]
    exact ⟨h.1.symm, isLeadOf_swap xs ms b h.2 (by simpa using hlen)⟩

theorem hasSub_append_cases :
    ∀ (a b n : List Char), hasSub (a ++ b) n = true →
      hasSub a n = true ∨ hasSub b n = true ∨
        ∃ i, i < a.length ∧ isLeadOf (a.drop i) n = true
  | [], b, n, h => Or.inr (Or.inl (by simpa using h))
  | x :: xs, b, n, h => by
    simp only [List.cons_append, hasSub, Bool.or_eq_true] at h
    rcases h with hL | hR
    · by_cases hlen : n.length ≤ (x :: xs).length
      · left
        have : isLeadOf n (x :: xs) = true :=
          isLeadOf_take n (x :: xs) b (by simpa using hL) hlen
        simp [hasSub, this]
      · right; right
        refine ⟨0, by simp, ?_⟩
        simpa using isLeadOf_swap (x :: xs) n b (by simpa using hL) (by omega)
    · rcases hasSub_append_cases xs b n hR with h1 | h1 | ⟨i, hi, h1⟩
      · left; simp [hasSub, h1]
      · exact Or.inr (Or.inl h1)
      · right; right
        exact ⟨i + 1, by simpa using hi, by simpa using h1⟩

theorem breakAt_none_of_not_mem {c : Char} :
    ∀ {l : List Char}, c ∉ l → breakAt c l = none
  | [], _ => rfl
  | x :: xs, h => by
    have hx : ¬ x == c := by
      simp only [beq_iff_eq]
      intro hxc
      exact h (hxc ▸ List.mem_cons_self _ _)
    rw [breakAt, if_neg hx, breakAt_none_of_not_mem (fun hm => h (List.mem_cons_of_mem _ hm))]
    rfl

theorem breakAt_append_some {c : Char} :
    ∀ {a : List Char} (b : List Char) {x y : List Char},
      breakAt c a = some (x, y) → breakAt c (a ++ b) = some (x, y ++ b)
  | [], b, x, y, h => by simp [breakAt] at h
  | p :: ps, b, x, y, h => by
    rw [breakAt] at h
    by_cases hp : p == c
    · rw [if_pos hp] at h
      obtain ⟨rfl, rfl⟩ : [] = x ∧ ps = y := by simpa using h
      rw [List.cons_append, breakAt, if_pos hp]
    · rw [if_neg hp] at h
      rcases hps : breakAt c ps with - | ⟨u, v⟩
      · rw [hps] at h; simp at h
      · rw [hps] at h
        obtain ⟨rfl, rfl⟩ : p :: u = x ∧ v = y := by simpa using h
        rw [List.cons_append, breakAt, if_neg hp, breakAt_append_some b hps]
        rfl

theorem breakAt_append_none {c : Char} :
    ∀ {a : List Char} (b : List Char), breakAt c a = none →
      breakAt c (a ++ b) = (breakAt c b).map (fun p => (a ++ p.1, p.2))
  | [], b, _ => by
    rw [List.nil_append]
    cases breakAt c b with
    | none => rfl
    | some p => rfl
  | p :: ps, b, h => by
    rw [breakAt] at h
    by_cases hp : p == c
    · rw [if_pos hp] at h; simp at h
    · rw [if_neg hp] at h
      have hps : breakAt c ps = none := by
        rcases hq : breakAt c ps with - | q
        · rfl
        · rw [hq] at h; simp at h
      rw [List.cons_append, breakAt, if_neg hp, breakAt_append_none b hps]
      cases breakAt c b with
      | none => rfl
      | some q => rfl

theorem breakAtLast_none_of_not_mem {c : Char} :
    ∀ {l : List Char}, c ∉ l → breakAtLast c l = none
  | [], _ => rfl
  | x :: xs, h => by
    have hx : ¬ x == c := by
      simp only [beq_iff_eq]
      intro hxc
      exact h (hxc ▸ List.mem_cons_self _ _)
    rw [breakAtLast, breakAtLast_none_of_not_mem (fun hm => h (List.mem_cons_of_mem _ hm))]
    simp [hx]

theorem breakAtLast_append {c : Char} {s : List Char} (hs : breakAtLast c s = none) :
    ∀ l : List Char,
      breakAtLast c (l ++ s) = (breakAtLast c l).map (fun p => (p.1, p.2 ++ s))
  | [] => by
    rw [List.nil_append, hs]
    rfl
  | x :: xs => by
    rw [List.cons_append, breakAtLast, breakAtLast_append hs xs, breakAtLast]
    rcases h : breakAtLast c xs with - | ⟨a, b⟩
    · by_cases hx : x == c <;> simp [hx]
    · simp

theorem splitChar_ne_nil (c : Char) : ∀ l : List Char, splitChar c l ≠ []
  | [] => by simp [splitChar]
  | x :: xs => by
    rw [splitChar]
    by_cases hx : x == c
    · simp [hx]
    · rcases h : splitChar c xs with - | ⟨h1, t⟩
      · simp [hx, h]
      · simp [hx, h]

theorem splitChar_no {c : Char} :
    ∀ {l : List Char}, c ∉ l → splitChar c l = [l]
  | [], _ => rfl
  | x :: xs, h => by
    have hx : ¬ x == c := by
      simp only [beq_iff_eq]
      intro hxc
      exact h (hxc ▸ List.mem_cons_self _ _)
    rw [splitChar, if_neg hx, splitChar_no (fun hm => h (List.mem_cons_of_mem _ hm))]

theorem splitChar_append {c : Char} {s : List Char} (hs : c ∉ s) :
    ∀ l : List Char, splitChar c (l ++ s) = lastGlue (splitChar c l) s
  | [] => by
    rw [List.nil_append, splitChar_no hs]
    rfl
  | x :: xs => by
    rw [List.cons_append, splitChar, splitChar_append hs xs, splitChar]
    by_cases hx : x == c
    · rw [if_pos hx, if_pos hx]
      rcases h : splitChar c xs with - | ⟨h1, t⟩
      · exact absurd h (splitChar_ne_nil c xs)
      · cases t <;> rfl
    · rw [if_neg hx, if_neg hx]
      rcases h : splitChar c xs with - | ⟨h1, t⟩
      · exact absurd h (splitChar_ne_nil c xs)
      · cases t with
        | nil => rfl
        | cons t1 t2 => cases t2 <;> rfl

theorem lastD_lastGlue : ∀ (rs : List (List Char)) (s : List Char),
    lastD (lastGlue rs s) = lastD rs ++ s
  | [], _ => rfl
  | [_], _ => rfl
  | h :: h2 :: t, s => by
    have ih := lastD_lastGlue (h2 :: t) s
    cases t with
    | nil => simp [lastGlue, lastD]
    | cons t1 t2 => simpa [lastGlue, lastD] using ih

/-! ## Theorems: URL validator (claims C3, C9) -/

theorem string_mk_toList (s : String) : String.mk s.toList = s := rfl

/-- C3 counterexample: the URL `https://youtu.be/` is classified valid by
`is_valid_youtube_url` (it contains `youtu.be` and `extract_video_id`
returns a value, not `None`), yet the extracted identifier is the empty
string — refuting "a URL accepted as valid never yields an empty or
absent video identifier". -/
theorem c3_empty_id_counterexample :
    is_valid_youtube_url "https://youtu.be/" = true
    ∧ extract_video_id "https://youtu.be/" = some "" := by
  exact ⟨rfl, rfl⟩

theorem extract_some_domain {url : String} (h : (extract_video_id url).isSome = true) :
    (hasSub (pyLower url.toList) ("youtube.com".toList)
      || hasSub (pyLower url.toList) ("youtu.be".toList)) = true := by
  by_cases h1 : hasSub url.toList ("youtu.be".toList) = true
  · have hm := hasSub_map Char.toLower _ _ h1
    have heq : ("youtu.be".toList).map Char.toLower = "youtu.be".toList := by decide
    rw [heq] at hm
    have hm2 : hasSub (pyLower url.toList) ("youtu.be".toList) = true := hm
    rw [hm2, Bool.or_true]
  · by_cases h2 : hasSub url.toList ("youtube.com".toList) = true
    · have hm := hasSub_map Char.toLower _ _ h2
      have heq : ("youtube.com".toList).map Char.toLower = "youtube.com".toList := by decide
      rw [heq] at hm
      have hm2 : hasSub (pyLower url.toList) ("youtube.com".toList) = true := hm
      rw [hm2, Bool.true_or]
    · exfalso
      simp only [extract_video_id] at h
      rw [if_neg h1, if_neg h2] at h
      simp at h

/-- C3 (amended): the identifier extracted by the URL validator is
*present* (not `None`) exactly when the validator classifies the URL as
valid; however a valid URL's identifier may be the empty string (see the
counterexample), so "non-empty" must be weakened to "present". -/
theorem c3_id_presence_amended (url : String) :
    (extract_video_id url).isSome = is_valid_youtube_url url := by
  show (extract_video_id url).isSome =
    ((hasSub (pyLower url.toList) ("youtube.com".toList)
      || hasSub (pyLower url.toList) ("youtu.be".toList))
      && (extract_video_id url).isSome)
  cases hs : (extract_video_id url).isSome with
  | false => rw [Bool.and_false]
  | true => rw [Bool.and_true, extract_some_domain hs]

theorem c3_id_presence_amended_witness :
    (extract_video_id "https://youtu.be/xyz").isSome
      = is_valid_youtube_url "https://youtu.be/xyz" :=
  c3_id_presence_amended "https://youtu.be/xyz"

theorem idchars_not_mem {id : List Char}
    (hid : ∀ c ∈ id, (c.isAlpha || c.isDigit || c == '-' || c == '_') = true) :
    '/' ∉ id ∧ '?' ∉ id ∧ '#' ∉ id ∧ '&' ∉ id ∧ '=' ∉ id ∧ ';' ∉ id ∧ '.' ∉ id := by
  refine ⟨?_, ?_, ?_, ?_, ?_, ?_, ?_⟩ <;>
    exact fun hm => absurd (hid _ hm) (by decide)

theorem hasSub_append_false {a b n : List Char}
    (ha : hasSub a n = false) (hb : hasSub b n = false)
    (hspan : ∀ i, i < a.length → isLeadOf (List.drop i a) n = false) :
    hasSub (a ++ b) n = false := by
  by_contra h
  simp only [Bool.not_eq_false] at h
  rcases hasSub_append_cases a b n h with h1 | h1 | ⟨i, hi, h1⟩
  · rw [ha] at h1; exact Bool.false_ne_true h1
  · rw [hb] at h1; exact Bool.false_ne_true h1
  · rw [hspan i hi] at h1; exact Bool.false_ne_true h1

theorem extract_short_template {id : String}
    (hid : ∀ c ∈ id.toList, (c.isAlpha || c.isDigit || c == '-' || c == '_') = true) :
    extract_video_id ("https://youtu.be/" ++ id) = some id := by
  obtain ⟨hslash, hq, -, -, -, -, -⟩ := idchars_not_mem hid
  simp only [extract_video_id]
  have hul : ("https://youtu.be/" ++ id).toList
      = "https://youtu.be/".toList ++ id.toList := rfl
  rw [hul]
  have hdom : hasSub ("https://youtu.be/".toList ++ id.toList) ("youtu.be".toList) = true :=
    hasSub_append_left _ _ _ (by decide)
  rw [if_pos hdom, splitChar_append hslash, lastD_lastGlue]
  have h1 : lastD (splitChar '/' ("https://youtu.be/".toList)) = [] := by decide
  rw [h1, List.nil_append, splitChar_no hq]
  rfl

theorem extract_watch_template {id : String} (hne : id.toList ≠ [])
    (hid : ∀ c ∈ id.toList, (c.isAlpha || c.isDigit || c == '-' || c == '_') = true) :
    extract_video_id ("https://www.youtube.com/watch?v=" ++ id) = some id := by
  obtain ⟨hslash, hq, hhash, hamp, heq, hsemi, hdot⟩ := idchars_not_mem hid
  have hyb : hasSub ("https://www.youtube.com/watch?v=".toList ++ id.toList)
      ("youtu.be".toList) = false := by
    apply hasSub_append_false
    · decide
    · exact hasSub_false_of_missing_char (by decide : '.' ∈ ("youtu.be".toList)) hdot
    · decide
  have hyc : hasSub ("https://www.youtube.com/watch?v=".toList ++ id.toList)
      ("youtube.com".toList) = true :=
    hasSub_append_left _ _ _ (by decide)
  have hfrag : fragSplit ("/watch?v=".toList ++ id.toList)
      = ("/watch?v=".toList ++ id.toList, []) := by
    unfold fragSplit
    rw [breakAt_append_none id.toList
      (show breakAt '#' ("/watch?v=".toList) = none by decide),
      breakAt_none_of_not_mem hhash]
    rfl
  have hquery : querySplit ("/watch?v=".toList ++ id.toList)
      = ("/watch".toList, "v=".toList ++ id.toList) := by
    unfold querySplit
    rw [breakAt_append_some id.toList
      (show breakAt '?' ("/watch?v=".toList) = some ("/watch".toList, "v=".toList) by decide)]
  have hparse : pyUrlparse ("https://www.youtube.com/watch?v=".toList ++ id.toList)
      = ⟨"https".toList, "www.youtube.com".toList, "/watch".toList, [],
         "v=".toList ++ id.toList, []⟩ := by
    have hscheme : schemeSplit ("https://www.youtube.com/watch?v=".toList ++ id.toList)
        = ("https".toList, "//www.youtube.com/watch?v=".toList ++ id.toList) := rfl
    have hnet : netlocSplit ("//www.youtube.com/watch?v=".toList ++ id.toList)
        = ("www.youtube.com".toList, "/watch?v=".toList ++ id.toList) := rfl
    have hparams : pySplitparams ("/watch".toList) = ("/watch".toList, []) := by decide
    simp only [pyUrlparse, hscheme, hnet, hfrag, hquery, hparams]
  have hqs : parseQsV ("v=".toList ++ id.toList) = some id.toList := by
    unfold parseQsV
    rw [splitChar_append hamp]
    show parseQsVGo [("v=".toList ++ id.toList)] = some id.toList
    unfold parseQsVGo
    rw [breakAt_append_some id.toList
      (show breakAt '=' ("v=".toList) = some (['v'], []) by decide)]
    show (if (['v'] = ['v'] ∧ ([] ++ id.toList : List Char) ≠ [])
        then some (([] ++ id.toList : List Char)) else parseQsVGo []) = some id.toList
    rw [if_pos ⟨rfl, by simpa using hne⟩]
    simp
  have hul : ("https://www.youtube.com/watch?v=" ++ id).toList
      = "https://www.youtube.com/watch?v=".toList ++ id.toList := rfl
  simp only [extract_video_id]
  rw [hul]
  have hybn : ¬ (hasSub ("https://www.youtube.com/watch?v=".toList ++ id.toList)
      ("youtu.be".toList) = true) := by
    rw [hyb]
    simp
  rw [if_neg hybn, if_pos hyc]
  simp only [hparse]
  rw [if_true, hqs]
  rfl

theorem extract_embed_template {id : String}
    (hid : ∀ c ∈ id.toList, (c.isAlpha || c.isDigit || c == '-' || c == '_') = true) :
    extract_video_id ("https://www.youtube.com/embed/" ++ id) = some id := by
  obtain ⟨hslash, hq, hhash, hamp, heq, hsemi, hdot⟩ := idchars_not_mem hid
  have hyb : hasSub ("https://www.youtube.com/embed/".toList ++ id.toList)
      ("youtu.be".toList) = false := by
    apply hasSub_append_false
    · decide
    · exact hasSub_false_of_missing_char (by decide : '.' ∈ ("youtu.be".toList)) hdot
    · decide
  have hyc : hasSub ("https://www.youtube.com/embed/".toList ++ id.toList)
      ("youtube.com".toList) = true :=
    hasSub_append_left _ _ _ (by decide)
  have hfrag : fragSplit ("/embed/".toList ++ id.toList)
      = ("/embed/".toList ++ id.toList, []) := by
    unfold fragSplit
    rw [breakAt_append_none id.toList
      (show breakAt '#' ("/embed/".toList) = none by decide),
      breakAt_none_of_not_mem hhash]
    rfl
  have hquery : querySplit ("/embed/".toList ++ id.toList)
      = ("/embed/".toList ++ id.toList, []) := by
    unfold querySplit
    rw [breakAt_append_none id.toList
      (show breakAt '?' ("/embed/".toList) = none by decide),
      breakAt_none_of_not_mem hq]
    rfl
  have hbal : breakAtLast '/' ("/embed/".toList ++ id.toList)
      = some ("/embed".toList, id.toList) := by
    rw [breakAtLast_append (breakAtLast_none_of_not_mem hslash)]
    rfl
  have hparams : pySplitparams ("/embed/".toList ++ id.toList)
      = ("/embed/".toList ++ id.toList, []) := by
    unfold pySplitparams
    rw [hbal]
    show (match breakAt ';' id.toList with
      | some (x, y) => ("/embed".toList ++ '/' :: x, y)
      | none => ("/embed/".toList ++ id.toList, [])) = ("/embed/".toList ++ id.toList, [])
    rw [breakAt_none_of_not_mem hsemi]
  have hparse : pyUrlparse ("https://www.youtube.com/embed/".toList ++ id.toList)
      = ⟨"https".toList, "www.youtube.com".toList, "/embed/".toList ++ id.toList, [],
         [], []⟩ := by
    have hscheme : schemeSplit ("https://www.youtube.com/embed/".toList ++ id.toList)
        = ("https".toList, "//www.youtube.com/embed/".toList ++ id.toList) := rfl
    have hnet : netlocSplit ("//www.youtube.com/embed/".toList ++ id.toList)
        = ("www.youtube.com".toList, "/embed/".toList ++ id.toList) := rfl
    simp only [pyUrlparse, hscheme, hnet, hfrag, hquery, hparams]
  have hul : ("https://www.youtube.com/embed/" ++ id).toList
      = "https://www.youtube.com/embed/".toList ++ id.toList := rfl
  simp only [extract_video_id]
  rw [hul]
  have hybn : ¬ (hasSub ("https://www.youtube.com/embed/".toList ++ id.toList)
      ("youtu.be".toList) = true) := by
    rw [hyb]
    simp
  rw [if_neg hybn, if_pos hyc]
  simp only [hparse]
  have hpw : ¬ (("/embed/".toList ++ id.toList : List Char) = "/watch".toList) := by
    intro hcontra
    simp at hcontra
  rw [if_neg hpw]
  have hlead : isLeadOf ("/embed/".toList) ("/embed/".toList ++ id.toList) = true :=
    isLeadOf_append_left _ _ _ (by decide)
  rw [if_pos hlead, splitChar_append hslash]
  show some (String.mk (([[], "embed".toList, id.toList] : List (List Char)).getD 2 []))
      = some id
  rfl

/-- C9: the URL validator rejects every input that lacks a recognizable
video-host domain substring (in its lowercased form) or an extractable
identifier, and accepts every well-formed canonical watch URL
(identifier in query parameter `v`), short-link URL (identifier as last
path segment) and embed URL (identifier after `/embed/`) whose
identifier is present (nonempty, drawn from the identifier alphabet). -/
theorem c9_validator_accept_reject :
    (∀ url : String,
        (hasSub (pyLower url.toList) ("youtube.com".toList)
          || hasSub (pyLower url.toList) ("youtu.be".toList)) = false →
        is_valid_youtube_url url = false)
    ∧ (∀ url : String, extract_video_id url = none → is_valid_youtube_url url = false)
    ∧ (∀ id : String, idOk id →
        is_valid_youtube_url ("https://www.youtube.com/watch?v=" ++ id) = true)
    ∧ (∀ id : String, idOk id →
        is_valid_youtube_url ("https://youtu.be/" ++ id) = true)
    ∧ (∀ id : String, idOk id →
        is_valid_youtube_url ("https://www.youtube.com/embed/" ++ id) = true) := by
  refine ⟨?_, ?_, ?_, ?_, ?_⟩
  · intro url hdom
    show ((hasSub (pyLower url.toList) ("youtube.com".toList)
      || hasSub (pyLower url.toList) ("youtu.be".toList))
      && (extract_video_id url).isSome) = false
    rw [hdom, Bool.false_and]
  · intro url hex
    show ((hasSub (pyLower url.toList) ("youtube.com".toList)
      || hasSub (pyLower url.toList) ("youtu.be".toList))
      && (extract_video_id url).isSome) = false
    rw [hex]
    simp
  · intro id hidok
    obtain ⟨hne, hid⟩ := hidok
    have hex := extract_watch_template hne hid
    have hdom : hasSub (pyLower ("https://www.youtube.com/watch?v=" ++ id).toList)
        ("youtube.com".toList) = true := by
      show hasSub (pyLower ("https://www.youtube.com/watch?v=".toList ++ id.toList))
        ("youtube.com".toList) = true
      rw [show pyLower ("https://www.youtube.com/watch?v=".toList ++ id.toList)
          = pyLower ("https://www.youtube.com/watch?v=".toList) ++ pyLower id.toList
        from List.map_append _ _ _]
      exact hasSub_append_left _ _ _ (by decide)
    show ((hasSub (pyLower ("https://www.youtube.com/watch?v=" ++ id).toList)
        ("youtube.com".toList)
      || hasSub (pyLower ("https://www.youtube.com/watch?v=" ++ id).toList)
        ("youtu.be".toList))
      && (extract_video_id ("https://www.youtube.com/watch?v=" ++ id)).isSome) = true
    rw [hdom, Bool.true_or, hex]
    rfl
  · intro id hidok
    obtain ⟨hne, hid⟩ := hidok
    have hex := extract_short_template hid
    have hdom : hasSub (pyLower ("https://youtu.be/" ++ id).toList)
        ("youtu.be".toList) = true := by
      show hasSub (pyLower ("https://youtu.be/".toList ++ id.toList))
        ("youtu.be".toList) = true
      rw [show pyLower ("https://youtu.be/".toList ++ id.toList)
          = pyLower ("https://youtu.be/".toList) ++ pyLower id.toList
        from List.map_append _ _ _]
      exact hasSub_append_left _ _ _ (by decide)
    show ((hasSub (pyLower ("https://youtu.be/" ++ id).toList) ("youtube.com".toList)
      || hasSub (pyLower ("https://youtu.be/" ++ id).toList) ("youtu.be".toList))
      && (extract_video_id ("https://youtu.be/" ++ id)).isSome) = true
    rw [hdom, Bool.or_true, hex]
    rfl
  · intro id hidok
    obtain ⟨hne, hid⟩ := hidok
    have hex := extract_embed_template hid
    have hdom : hasSub (pyLower ("https://www.youtube.com/embed/" ++ id).toList)
        ("youtube.com".toList) = true := by
      show hasSub (pyLower ("https://www.youtube.com/embed/".toList ++ id.toList))
        ("youtube.com".toList) = true
      rw [show pyLower ("https://www.youtube.com/embed/".toList ++ id.toList)
          = pyLower ("https://www.youtube.com/embed/".toList) ++ pyLower id.toList
        from List.map_append _ _ _]
      exact hasSub_append_left _ _ _ (by decide)
    show ((hasSub (pyLower ("https://www.youtube.com/embed/" ++ id).toList)
        ("youtube.com".toList)
      || hasSub (pyLower ("https://www.youtube.com/embed/" ++ id).toList)
        ("youtu.be".toList))
      && (extract_video_id ("https://www.youtube.com/embed/" ++ id)).isSome) = true
    rw [hdom, Bool.true_or, hex]
    rfl

theorem c9_validator_accept_reject_witness :
    is_valid_youtube_url ("https://www.youtube.com/watch?v=" ++ "abc123") = true
    ∧ is_valid_youtube_url ("https://youtu.be/" ++ "abc123") = true
    ∧ is_valid_youtube_url ("https://www.youtube.com/embed/" ++ "abc123") = true
    ∧ is_valid_youtube_url "https://example.com/page" = false :=
  ⟨c9_validator_accept_reject.2.2.1 "abc123" (by decide),
   c9_validator_accept_reject.2.2.2.1 "abc123" (by decide),
   c9_validator_accept_reject.2.2.2.2 "abc123" (by decide),
   c9_validator_accept_reject.2.1 "https://example.com/page" (by decide)⟩
